import Mathlib

/-!
# gcache: a transactional geohash cache over an embedded key-value store

Shallow embedding of `src/gcache.c`.  The C functions become Lean functions
that pass a `World` explicitly: the state of the storage engine together with
the trace of every engine call and every diagnostic the code emits, in order.

The storage engine (LMDB), the JSON library, `malloc` and `is_directory` are
not part of `gcache.c`; they are parameters (`Engine`, `Codec`).  Most results
hold for every engine.  The results that speak about stored data are proved on
`memEngine`, an in-memory engine with injectable failures.

Conventions.  A `char *` argument is a `CStr`: the characters before the
terminator; the memory it points to is those characters followed by a zero
byte.  The `MDB_val` that `mdb_get` fills in points into the engine's memory:
its `mv_data` is the memory from the value's first byte on, the value being
the first `mv_size` bytes of it, and `(char *)data.mv_data` reads that memory
up to its first zero byte, wherever that lies.  Pointers and handles are
natural numbers, 0 being NULL.  The local `MDB_txn *txn` of `gcache_put`,
`gcache_get` and `gcache_json_get` is declared without initialiser: its
indeterminate value is the argument `txn0` of these functions, and
`mdb_txn_begin` overwrites it only when the engine stores a handle.
-/

set_option autoImplicit false

namespace Gcache

/-! ## C data -/

abbrev Byte := Nat

abbrev Bytes := List Byte

/-- A C string (`char *`): its characters, none of which is the terminator. -/
structure CStr where
  chars : List Byte
  nz : ∀ b ∈ chars, b ≠ 0
deriving DecidableEq

/-- The memory from a pointer on, to the end of the region the pointer lies
in.  It holds a zero byte: a string read that met none would leave the region,
which the embedding does not follow. -/
structure Memory where
  bytes : Bytes
  term : 0 ∈ bytes
deriving DecidableEq

/-- The C string at a pointer, as the cast `(char *)data.mv_data` reads it:
the bytes of the memory before its first zero byte, whatever size the
`MDB_val` records. -/
def Memory.cstr (m : Memory) : CStr :=
  ⟨m.bytes.takeWhile (fun b => b != 0), fun b hb => by
    have h := List.mem_takeWhile_imp hb
    simpa using h⟩

/-- The memory a `char *` points to: the characters, then the zero byte. -/
def CStr.mem (s : CStr) : Memory := ⟨s.chars ++ [0], by simp⟩

/-- C `strlen`: the number of bytes before the first zero byte. -/
def strlen (s : CStr) : Nat := (s.mem.bytes.takeWhile (fun b => b != 0)).length

/-- LMDB `MDB_val`: a size and a pointer; `mv_data` is the memory at the pointer. -/
structure MDB_val where
  mv_size : Nat
  mv_data : Memory
deriving DecidableEq

/-- The byte region an `MDB_val` denotes: `mv_size` bytes from `mv_data`. -/
def MDB_val.bytes (v : MDB_val) : Bytes := v.mv_data.bytes.take v.mv_size

/-- Modelled from the spec: the cache handle `struct gcache` is declared in
gcache.h, which is not among the sources; the spec describes it as wrapping a
reference to the storage environment and the identifier of the single open
table, and gcache.c uses its fields `env` and `dbi`. -/
structure gcache where
  env : Nat
  dbi : Nat
deriving DecidableEq

/-- The null pointer. -/
def NULL : Nat := 0

/-- Flag `MDB_RDONLY` of lmdb.h. -/
def MDB_RDONLY : Nat := 0x20000

/-- Return code `MDB_NOTFOUND` of lmdb.h. -/
def MDB_NOTFOUND : Int := -30798

/-- Return code `MDB_BAD_VALSIZE` of lmdb.h. -/
def MDB_BAD_VALSIZE : Int := -30781

/-- Error number ENOENT of errno.h. -/
def ENOENT : Int := 2

/-- Error number ENOMEM of errno.h. -/
def ENOMEM : Int := 12

/-- Error number EACCES of errno.h. -/
def EACCES : Int := 13

/-- Error number EINVAL of errno.h. -/
def EINVAL : Int := 22

/-! ## Diagnostics and the event trace -/

/-- One formatted output of gcache.c, named after its format string. -/
inductive Msg where
  /-- Format `"gcache_open: %s is not a directory\n"` -/
  | not_a_directory (path : CStr)
  /-- Format `"%s\n", mdb_strerror(rc)` -/
  | strerror (rc : Int)
  /-- Call `write(1, "HELLO\n", 6)` -/
  | hello
  /-- Format `"commit after open %s\n", mdb_strerror(rc)` -/
  | commit_after_open (rc : Int)
  /-- Format `"mdb_txn_commit: (%d) %s\n", rc, mdb_strerror(rc)` -/
  | txn_commit (rc : Int)
  /-- the stringify failure message of gcache_json_put -/
  | cant_stringify
  /-- Format `"gcache_get: cannot txn_begin: (%d) %s\n", rc, mdb_strerror(rc)` -/
  | cannot_txn_begin (rc : Int)
  /-- Format `"get: %s\n", mdb_strerror(rc)` -/
  | get_error (rc : Int)
  /-- Format `" [%s] not found\n", k` -/
  | not_found (k : CStr)
  /-- Format `"%s\n", (char *)data.mv_data` -/
  | value (text : CStr)
  /-- Format `"gcache_json_get(%s): %s\n", k, mdb_strerror(rc)` -/
  | json_get_error (k : CStr) (rc : Int)
  /-- Format `"Cannot decode JSON from lmdb\n"` -/
  | cannot_decode
deriving DecidableEq

/-- What gcache.c does to the outside, in order: engine calls with their
arguments and results, output on stdout and stderr, and `free`. -/
inductive Event where
  | env_create (rc : Int) (env : Nat)
  | env_set_mapsize (env : Nat) (size : Nat) (rc : Int)
  | env_open (env : Nat) (path : CStr) (flags : Nat) (mode : Nat) (rc : Int)
  | env_close (env : Nat)
  | txn_begin (env : Nat) (parent : Nat) (flags : Nat) (rc : Int) (txn : Nat)
  | dbi_open (txn : Nat) (flags : Nat) (rc : Int) (dbi : Nat)
  | txn_commit (txn : Nat) (rc : Int)
  | txn_abort (txn : Nat)
  | put (txn : Nat) (dbi : Nat) (key : Bytes) (data : Bytes) (flags : Nat) (rc : Int)
  | get (txn : Nat) (dbi : Nat) (key : Bytes) (rc : Int) (data : MDB_val)
  | stdout (m : Msg)
  | stderr (m : Msg)
  | free_gc
  | free_js
deriving DecidableEq

/-! ## The collaborators -/

/-- The storage engine and the C library as gcache.c uses them, over an
engine state `σ`.  Out-parameters are returned next to the return code; for
`mdb_txn_begin` the result says whether a handle was stored into `*txn`
(`none`: `*txn` is left as it was). -/
structure Engine (σ : Type) where
  /-- Call `is_directory(path)` of util.h -/
  is_directory : CStr → σ → Bool
  /-- whether `malloc(sizeof (struct gcache))` returns memory -/
  malloc : σ → Bool
  /-- Call `mdb_env_create(&env)` -/
  env_create : σ → Int × Nat × σ
  /-- Call `mdb_env_set_mapsize(env, size)` -/
  env_set_mapsize : Nat → Nat → σ → Int × σ
  /-- Call `mdb_env_open(env, path, flags, mode)` -/
  env_open : Nat → CStr → Nat → Nat → σ → Int × σ
  /-- Call `mdb_env_close(env)` -/
  env_close : Nat → σ → σ
  /-- Call `mdb_txn_begin(env, parent, flags, &txn)` -/
  txn_begin : Nat → Nat → Nat → σ → Int × Option Nat × σ
  /-- Call `mdb_dbi_open(txn, NULL, flags, &dbi)` -/
  dbi_open : Nat → Nat → σ → Int × Nat × σ
  /-- Call `mdb_txn_commit(txn)` -/
  txn_commit : Nat → σ → Int × σ
  /-- Call `mdb_txn_abort(txn)` -/
  txn_abort : Nat → σ → σ
  /-- Call `mdb_put(txn, dbi, &key, &data, flags)` -/
  put : Nat → Nat → Bytes → Bytes → Nat → σ → Int × σ
  /-- Call `mdb_get(txn, dbi, &key, &data)` -/
  get : Nat → Nat → Bytes → σ → Int × MDB_val × σ

/-- The JSON library: `json_stringify(node, NULL)` and `json_decode(text)`,
each returning NULL (`none`) on failure. -/
structure Codec (J : Type) where
  json_stringify : J → Option CStr
  json_decode : CStr → Option J

/-- The engine state and everything emitted so far. -/
structure World (σ : Type) where
  eng : σ
  trace : List Event

variable {σ J : Type}

def World.emit (w : World σ) (e : Event) : World σ :=
  { w with trace := w.trace ++ [e] }

def fprintf_stderr (m : Msg) (w : World σ) : World σ := w.emit (Event.stderr m)

def printf (m : Msg) (w : World σ) : World σ := w.emit (Event.stdout m)

def free_gc (w : World σ) : World σ := w.emit Event.free_gc

def free_js (w : World σ) : World σ := w.emit Event.free_js

def mdb_env_create (E : Engine σ) (w : World σ) : Int × Nat × World σ :=
  let r := E.env_create w.eng
  (r.1, r.2.1, { eng := r.2.2, trace := w.trace ++ [Event.env_create r.1 r.2.1] })

def mdb_env_set_mapsize (E : Engine σ) (env size : Nat) (w : World σ) : Int × World σ :=
  let r := E.env_set_mapsize env size w.eng
  (r.1, { eng := r.2, trace := w.trace ++ [Event.env_set_mapsize env size r.1] })

def mdb_env_open (E : Engine σ) (env : Nat) (path : CStr) (flags mode : Nat) (w : World σ) :
    Int × World σ :=
  let r := E.env_open env path flags mode w.eng
  (r.1, { eng := r.2, trace := w.trace ++ [Event.env_open env path flags mode r.1] })

def mdb_env_close (E : Engine σ) (env : Nat) (w : World σ) : World σ :=
  { eng := E.env_close env w.eng, trace := w.trace ++ [Event.env_close env] }

/-- Call `mdb_txn_begin(env, parent, flags, &txn)`, `txn` being the value the
variable holds before the call; returns the code and the value it holds after. -/
def mdb_txn_begin (E : Engine σ) (env parent flags txn : Nat) (w : World σ) :
    Int × Nat × World σ :=
  let r := E.txn_begin env parent flags w.eng
  (r.1, r.2.1.getD txn,
    { eng := r.2.2,
      trace := w.trace ++ [Event.txn_begin env parent flags r.1 (r.2.1.getD txn)] })

def mdb_dbi_open (E : Engine σ) (txn flags : Nat) (w : World σ) : Int × Nat × World σ :=
  let r := E.dbi_open txn flags w.eng
  (r.1, r.2.1, { eng := r.2.2, trace := w.trace ++ [Event.dbi_open txn flags r.1 r.2.1] })

def mdb_txn_commit (E : Engine σ) (txn : Nat) (w : World σ) : Int × World σ :=
  let r := E.txn_commit txn w.eng
  (r.1, { eng := r.2, trace := w.trace ++ [Event.txn_commit txn r.1] })

def mdb_txn_abort (E : Engine σ) (txn : Nat) (w : World σ) : World σ :=
  { eng := E.txn_abort txn w.eng, trace := w.trace ++ [Event.txn_abort txn] }

def mdb_put (E : Engine σ) (txn dbi : Nat) (key data : MDB_val) (flags : Nat) (w : World σ) :
    Int × World σ :=
  let r := E.put txn dbi key.bytes data.bytes flags w.eng
  (r.1, { eng := r.2, trace := w.trace ++ [Event.put txn dbi key.bytes data.bytes flags r.1] })

def mdb_get (E : Engine σ) (txn dbi : Nat) (key : MDB_val) (w : World σ) :
    Int × MDB_val × World σ :=
  let r := E.get txn dbi key.bytes w.eng
  (r.1, r.2.1, { eng := r.2.2, trace := w.trace ++ [Event.get txn dbi key.bytes r.1 r.2.1] })

/-! ## gcache.c -/

/-- C function `struct gcache *gcache_open(char *path, int rdonly)`; `LMDB_DB_SIZE` is the
map size constant of gcache.h. -/
def gcache_open (E : Engine σ) (LMDB_DB_SIZE : Nat) (path : CStr) (rdonly : Int)
    (w : World σ) : Option gcache × World σ :=
  let txn : Nat := NULL
  let flags : Nat := 0
  if !(E.is_directory path w.eng) then
    (none, fprintf_stderr (Msg.not_a_directory path) w)
  else if !(E.malloc w.eng) then
    (none, w)
  else
    let gc : gcache := { env := 0, dbi := 0 }
    let flags := if rdonly ≠ 0 then flags ||| MDB_RDONLY else flags
    let (rc, env, w) := mdb_env_create E w
    let gc := { gc with env := env }
    if rc ≠ 0 then
      (none, free_gc (fprintf_stderr (Msg.strerror rc) w))
    else
      let (_, w) := mdb_env_set_mapsize E gc.env LMDB_DB_SIZE w
      let (rc, w) := mdb_env_open E gc.env path flags 0o664 w
      if rc ≠ 0 then
        (none, free_gc (fprintf_stderr (Msg.strerror rc) w))
      else
        -- the return value of mdb_txn_begin is not assigned: `rc` below is
        -- still the one of mdb_env_open
        let (_, txn, w) := mdb_txn_begin E gc.env NULL flags txn w
        if rc ≠ 0 then
          (none, free_gc (mdb_env_close E gc.env (fprintf_stderr (Msg.strerror rc) w)))
        else
          let (rc, dbi, w) := mdb_dbi_open E txn 0 w
          let gc := { gc with dbi := dbi }
          if rc ≠ 0 then
            (none, free_gc (mdb_env_close E gc.env (mdb_txn_abort E txn
              (fprintf_stderr (Msg.strerror rc) (printf Msg.hello w)))))
          else
            let (rc, w) := mdb_txn_commit E txn w
            if rc ≠ 0 then
              (none, free_gc (mdb_env_close E gc.env
                (fprintf_stderr (Msg.commit_after_open rc) w)))
            else
              (some gc, w)

/-- C function `void gcache_close(struct gcache *gc)` -/
def gcache_close (E : Engine σ) (gc : Option gcache) (w : World σ) : World σ :=
  match gc with
  | none => w
  | some gc => free_gc (mdb_env_close E gc.env w)

/-- C function `int gcache_put(struct gcache *gc, char *ghash, char *payload)`;
`txn0` is the indeterminate value of its uninitialised local `txn`. -/
def gcache_put (E : Engine σ) (gc : Option gcache) (ghash payload : CStr) (txn0 : Nat)
    (w : World σ) : Int × World σ :=
  let txn : Nat := txn0
  match gc with
  | none => (1, w)
  | some gc =>
    let (rc, txn, w) := mdb_txn_begin E gc.env NULL 0 txn w
    let w := if rc ≠ 0 then fprintf_stderr (Msg.strerror rc) w else w
    let key : MDB_val := { mv_data := ghash.mem, mv_size := strlen ghash }
    let data : MDB_val := { mv_data := payload.mem, mv_size := strlen payload + 1 }
    let (rc, w) := mdb_put E txn gc.dbi key data 0 w
    let w := if rc ≠ 0 then fprintf_stderr (Msg.strerror rc) w else w
    let (rc, w) := mdb_txn_commit E txn w
    let w := if rc ≠ 0 then mdb_txn_abort E txn (fprintf_stderr (Msg.txn_commit rc) w) else w
    (rc, w)

/-- C function `int gcache_json_put(struct gcache *gc, char *ghash, JsonNode *geo)`;
`txn0` is the indeterminate value of the local `txn` of the `gcache_put` it calls. -/
def gcache_json_put (E : Engine σ) (C : Codec J) (gc : Option gcache) (ghash : CStr) (geo : J)
    (txn0 : Nat) (w : World σ) : Int × World σ :=
  match gc with
  | none => (1, w)
  | some gc =>
    match C.json_stringify geo with
    | none => (1, fprintf_stderr Msg.cant_stringify w)
    | some js =>
      let (rc, w) := gcache_put E (some gc) ghash js txn0 w
      let w := free_js w
      (rc, w)

/-- C function `int gcache_get(struct gcache *gc, char *k)`; `txn0` is the
indeterminate value of its uninitialised local `txn`. -/
def gcache_get (E : Engine σ) (gc : Option gcache) (k : CStr) (txn0 : Nat) (w : World σ) :
    Int × World σ :=
  let txn : Nat := txn0
  match gc with
  | none => (1, w)
  | some gc =>
    let (rc, txn, w) := mdb_txn_begin E gc.env NULL MDB_RDONLY txn w
    if rc ≠ 0 then
      (1, fprintf_stderr (Msg.cannot_txn_begin rc) w)
    else
      let key : MDB_val := { mv_data := k.mem, mv_size := strlen k }
      let (rc, data, w) := mdb_get E txn gc.dbi key w
      let w :=
        if rc ≠ 0 then
          if rc ≠ MDB_NOTFOUND then printf (Msg.get_error rc) w
          else printf (Msg.not_found k) w
        else printf (Msg.value data.mv_data.cstr) w
      let (_, w) := mdb_txn_commit E txn w
      (0, w)

/-- C function `JsonNode *gcache_json_get(struct gcache *gc, char *k)`; `txn0`
is the indeterminate value of its uninitialised local `txn`. -/
def gcache_json_get (E : Engine σ) (C : Codec J) (gc : Option gcache) (k : CStr) (txn0 : Nat)
    (w : World σ) : Option J × World σ :=
  let txn : Nat := txn0
  let geo : Option J := none
  match gc with
  | none => (none, w)
  | some gc =>
    let (rc, txn, w) := mdb_txn_begin E gc.env NULL MDB_RDONLY txn w
    if rc ≠ 0 then
      (none, fprintf_stderr (Msg.cannot_txn_begin rc) w)
    else
      let key : MDB_val := { mv_data := k.mem, mv_size := strlen k }
      let (rc, data, w) := mdb_get E txn gc.dbi key w
      let (geo, w) :=
        if rc ≠ 0 then
          if rc ≠ MDB_NOTFOUND then (geo, fprintf_stderr (Msg.json_get_error k rc) w)
          else ((none : Option J), w)
        else
          match C.json_decode data.mv_data.cstr with
          | none => ((none : Option J), fprintf_stderr Msg.cannot_decode w)
          | some g => (some g, w)
      let (_, w) := mdb_txn_commit E txn w
      (geo, w)

/-! ## Two engines

`memEngine` keeps committed data and live transactions in memory and lets a
script inject a failure into any fallible call.  `scriptEngine` keeps no data:
it answers every fallible call with the next code of its script. -/

abbrev Store := List (Bytes × Bytes)

/-- Insert or overwrite the value of a key. -/
def upsert (k v : Bytes) : Store → Store
  | [] => [(k, v)]
  | (k1, v1) :: rest => if k1 = k then (k, v) :: rest else (k1, v1) :: upsert k v rest

/-- A live transaction: its handle, its mode, and the data it sees (the
committed store at begin, plus its own writes). -/
structure Txn where
  id : Nat
  rdonly : Bool
  view : Store
deriving DecidableEq

/-- Modelled from the spec: the embedded storage engine is not part of this
repository; the spec treats it as a black-box ACID key-value store with
begin/commit/abort transactions and get/put by byte-string key, whose calls can
each fail.  `script` holds the return codes to inject, one per fallible call
(none left: no injected failure); `after` is what lies in the engine's
memory behind a value that `mdb_get` points to. -/
structure Mem where
  script : List Int
  dirs : List CStr
  heap : Bool
  opened : Bool
  rdonly : Bool
  store : Store
  after : Memory
  live : List Txn
  next : Nat
deriving DecidableEq

/-- What `data` holds when `mdb_get` has failed; the code does not read it. -/
def noData : MDB_val := { mv_size := 0, mv_data := ⟨[0], by simp⟩ }

/-- The handle of the one environment of `Mem`. -/
def MEM_ENV : Nat := 1

/-- LMDB handle of the default (unnamed) table. -/
def MAIN_DBI : Nat := 1

/-- The next code of a script; a script that is used up injects no failure. -/
def nextCode : List Int → Int
  | [] => 0
  | c :: _ => c

/-- The code injected into the current call, and the state with it consumed. -/
def Mem.pop (m : Mem) : Int × Mem := (nextCode m.script, { m with script := m.script.tail })

/-- The live transaction a handle denotes; NULL denotes none. -/
def Mem.txn (m : Mem) (h : Nat) : Option Txn :=
  if h = NULL then none else m.live.find? (fun t => t.id == h)

def Mem.env_create (m : Mem) : Int × Nat × Mem :=
  let (c, m) := m.pop
  if c ≠ 0 then (c, NULL, m) else (0, MEM_ENV, m)

def Mem.env_open (env : Nat) (path : CStr) (flags : Nat) (m : Mem) : Int × Mem :=
  let (c, m) := m.pop
  if c ≠ 0 then (c, m)
  else if env ≠ MEM_ENV then (EINVAL, m)
  else if !(m.dirs.contains path) then (ENOENT, m)
  else (0, { m with opened := true, rdonly := flags &&& MDB_RDONLY != 0 })

def Mem.env_close (env : Nat) (m : Mem) : Mem :=
  if env ≠ MEM_ENV then m else { m with opened := false, live := [] }

/-- A failed begin stores no handle. -/
def Mem.txn_begin (env flags : Nat) (m : Mem) : Int × Option Nat × Mem :=
  let (c, m) := m.pop
  if c ≠ 0 then (c, none, m)
  else if env ≠ MEM_ENV ∨ m.opened = false then (EINVAL, none, m)
  else if flags &&& MDB_RDONLY = 0 ∧ m.rdonly = true then (EACCES, none, m)
  else
    let t : Txn := { id := m.next + 1, rdonly := flags &&& MDB_RDONLY != 0, view := m.store }
    (0, some t.id, { m with live := t :: m.live, next := m.next + 1 })

def Mem.dbi_open (txn : Nat) (m : Mem) : Int × Nat × Mem :=
  let (c, m) := m.pop
  if c ≠ 0 then (c, 0, m)
  else match m.txn txn with
    | none => (EINVAL, 0, m)
    | some _ => (0, MAIN_DBI, m)

/-- A failed commit discards the transaction; a successful commit of a write
transaction makes its view the committed store. -/
def Mem.txn_commit (txn : Nat) (m : Mem) : Int × Mem :=
  let (c, m) := m.pop
  match m.txn txn with
  | none => (if c ≠ 0 then c else EINVAL, m)
  | some t =>
    let m := { m with live := m.live.filter (fun u => u.id != txn) }
    if c ≠ 0 then (c, m)
    else (0, if t.rdonly then m else { m with store := t.view })

def Mem.txn_abort (txn : Nat) (m : Mem) : Mem :=
  if txn = NULL then m else { m with live := m.live.filter (fun u => u.id != txn) }

def Mem.put (txn dbi : Nat) (key data : Bytes) (m : Mem) : Int × Mem :=
  let (c, m) := m.pop
  if c ≠ 0 then (c, m)
  else match m.txn txn with
    | none => (EINVAL, m)
    | some t =>
      if dbi ≠ MAIN_DBI then (EINVAL, m)
      else if t.rdonly then (EACCES, m)
      else (0, { m with live := m.live.map (fun u =>
        if u.id == txn then { u with view := upsert key data u.view } else u) })

/-- A found value is handed out in place: `mv_size` is its length and
`mv_data` the memory from its first byte on, the value followed by `after`. -/
def Mem.get (txn dbi : Nat) (key : Bytes) (m : Mem) : Int × MDB_val × Mem :=
  let (c, m) := m.pop
  if c ≠ 0 then (c, noData, m)
  else match m.txn txn with
    | none => (EINVAL, noData, m)
    | some t =>
      if dbi ≠ MAIN_DBI then (EINVAL, noData, m)
      else match t.view.lookup key with
        | none => (MDB_NOTFOUND, noData, m)
        | some v =>
          (0, { mv_size := v.length,
                mv_data := ⟨v ++ m.after.bytes, List.mem_append_right v m.after.term⟩ }, m)

/-- The in-memory engine. -/
def memEngine : Engine Mem where
  is_directory path m := m.dirs.contains path
  malloc m := m.heap
  env_create := Mem.env_create
  env_set_mapsize _ _ m := (0, m)
  env_open env path flags _ m := Mem.env_open env path flags m
  env_close := Mem.env_close
  txn_begin env _ flags m := Mem.txn_begin env flags m
  dbi_open txn _ m := Mem.dbi_open txn m
  txn_commit := Mem.txn_commit
  txn_abort := Mem.txn_abort
  put txn dbi key data _ m := Mem.put txn dbi key data m
  get := Mem.get

/-- An engine that keeps no data and checks no handle: every fallible call
returns the next code of the script (0 when the script is used up). -/
def scriptEngine : Engine (List Int) where
  is_directory _ _ := true
  malloc _ := true
  env_create s := (nextCode s, if nextCode s = 0 then 1 else NULL, s.tail)
  env_set_mapsize _ _ s := (0, s)
  env_open _ _ _ _ s := (nextCode s, s.tail)
  env_close _ s := s
  txn_begin _ _ _ s := (nextCode s, if nextCode s = 0 then some 1 else none, s.tail)
  dbi_open _ _ s := (nextCode s, if nextCode s = 0 then MAIN_DBI else 0, s.tail)
  txn_commit _ s := (nextCode s, s.tail)
  txn_abort _ s := s
  put _ _ _ _ _ s := (nextCode s, s.tail)
  get _ _ _ s := (if nextCode s = 0 then MDB_NOTFOUND else nextCode s, noData, s.tail)

/-- The engine `E` with the return code of `mdb_txn_begin` replaced by `f` of it. -/
def withBeginCode (E : Engine σ) (f : Int → Int) : Engine σ :=
  { E with txn_begin := fun env parent flags s =>
      (f (E.txn_begin env parent flags s).1, (E.txn_begin env parent flags s).2) }

/-- The environment is open for writing and `gc` is its handle. -/
def Writable (m : Mem) (gc : gcache) : Prop :=
  m.opened = true ∧ m.rdonly = false ∧ gc.env = MEM_ENV ∧ gc.dbi = MAIN_DBI

/-- The environment is open (in either mode) and `gc` is its handle. -/
def Readable (m : Mem) (gc : gcache) : Prop :=
  m.opened = true ∧ gc.env = MEM_ENV ∧ gc.dbi = MAIN_DBI

/-- No failure is injected into the next `n` fallible engine calls. -/
def quiet : Nat → List Int → Prop
  | 0, _ => True
  | n + 1, s => nextCode s = 0 ∧ quiet n s.tail

/-! ## Reading the trace -/

/-- The upserts among some events: the key and value bytes of each `mdb_put`. -/
def upserts (evs : List Event) : List (Bytes × Bytes) :=
  evs.filterMap (fun e => match e with
    | Event.put _ _ key data _ _ => some (key, data)
    | _ => none)

/-- The event is a commit or an abort of transaction `t`. -/
def Event.closes (t : Nat) : Event → Prop
  | Event.txn_commit u _ => u = t
  | Event.txn_abort u => u = t
  | _ => False

/-- Every successful `mdb_txn_begin` among the events is followed, later among
the same events, by a commit or an abort of the transaction it returned. -/
def TxnsClosed (evs : List Event) : Prop :=
  ∀ (pre post : List Event) (env parent flags t : Nat),
    evs = pre ++ Event.txn_begin env parent flags 0 t :: post →
    ∃ e ∈ post, Event.closes t e

/-- The event is a call into the storage engine. -/
def Event.isEngine : Event → Bool
  | Event.stdout _ => false
  | Event.stderr _ => false
  | Event.free_gc => false
  | Event.free_js => false
  | _ => true

/-- Boolean form of `TxnsClosed`, by one pass over the events. -/
def txnsClosed : List Event → Bool
  | [] => true
  | Event.txn_begin _ _ _ rc t :: rest =>
    (decide (rc ≠ 0) || rest.any (fun e =>
      match e with
      | Event.txn_commit u _ => u == t
      | Event.txn_abort u => u == t
      | _ => false)) && txnsClosed rest
  | _ :: rest => txnsClosed rest

/-- What was written to standard output among some events. -/
def printed (evs : List Event) : List Msg :=
  evs.filterMap (fun e => match e with
    | Event.stdout m => some m
    | _ => none)

/-! ## Concrete inputs -/

/-- The C string "abc". -/
def abc : CStr := ⟨[97, 98, 99], by decide⟩

/-- The geohash "u33dc". -/
def geohash : CStr := ⟨[117, 51, 51, 100, 99], by decide⟩

/-- The empty C string. -/
def emptyKey : CStr := ⟨[], by decide⟩

/-- The path "/db". -/
def dbPath : CStr := ⟨[47, 100, 98], by decide⟩

/-- The C string "xyz". -/
def xyz : CStr := ⟨[120, 121, 122], by decide⟩

/-- The C string of an empty JSON object, an opening and a closing brace. -/
def braces : CStr := ⟨[123, 125], by decide⟩

/-- The handle of the one environment of the in-memory engine. -/
def handle : gcache := { env := MEM_ENV, dbi := MAIN_DBI }

/-- An in-memory engine whose environment is not open, with directory "/db". -/
def memClosed (script : List Int) : Mem :=
  { script := script, dirs := [dbPath], heap := true, opened := false, rdonly := false,
    store := [], after := ⟨[0], by simp⟩, live := [], next := 0 }

/-- An in-memory engine with an empty environment open for writing. -/
def memOpen (script : List Int) : Mem :=
  { script := script, dirs := [dbPath], heap := true, opened := true, rdonly := false,
    store := [], after := ⟨[0], by simp⟩, live := [], next := 1 }

/-- A codec whose records are byte lists: a record serializes to itself when
it holds no zero byte (serialization fails otherwise), and every text decodes
to its bytes. -/
def textCodec : Codec Bytes where
  json_stringify d := if h : ∀ b ∈ d, b ≠ 0 then some ⟨d, h⟩ else none
  json_decode s := some s.chars

/-- An in-memory engine open for writing that holds an empty JSON object and
its zero byte under "u33dc", followed in memory by "ZZ" and a zero byte. -/
def memStored (script : List Int) : Mem :=
  { script := script, dirs := [dbPath], heap := true, opened := true, rdonly := false,
    store := [([117, 51, 51, 100, 99], [123, 125, 0])], after := ⟨[90, 90, 0], by simp⟩,
    live := [], next := 1 }

/-- An in-memory engine open for writing that holds under "u33dc" the single
byte "a" with no zero byte, followed in memory by "ZZ" and a zero byte. -/
def memRaw (script : List Int) : Mem :=
  { script := script, dirs := [dbPath], heap := true, opened := true, rdonly := false,
    store := [([117, 51, 51, 100, 99], [97])], after := ⟨[90, 90, 0], by simp⟩,
    live := [], next := 1 }

/-! ## C strings -/

theorem takeWhile_mem (s : CStr) : s.mem.bytes.takeWhile (fun b => b != 0) = s.chars := by
  obtain ⟨cs, h⟩ := s
  simp only [CStr.mem]
  induction cs with
  | nil => simp
  | cons a t ih =>
    have ha : a ≠ 0 := h a (by simp)
    have ht : ∀ b ∈ t, b ≠ 0 := fun b hb => h b (by simp [hb])
    simp [List.takeWhile_cons, ha, ih ht]

theorem strlen_eq (s : CStr) : strlen s = s.chars.length := by
  simp [strlen, takeWhile_mem]

theorem key_bytes (s : CStr) :
    MDB_val.bytes { mv_data := s.mem, mv_size := strlen s } = s.chars := by
  simp [MDB_val.bytes, strlen_eq, CStr.mem]

theorem data_bytes (s : CStr) :
    MDB_val.bytes { mv_data := s.mem, mv_size := strlen s + 1 } = s.chars ++ [0] := by
  simp [MDB_val.bytes, strlen_eq, CStr.mem, List.take_append_eq_append_take]

theorem takeWhile_append_stop (v rest : Bytes) (hv : 0 ∈ v) :
    (v ++ rest).takeWhile (fun b => b != 0) = v.takeWhile (fun b => b != 0) := by
  induction v with
  | nil => simp at hv
  | cons a t ih =>
    by_cases ha : a = 0
    · simp [List.takeWhile_cons, ha]
    · have ht : 0 ∈ t := by
        rcases List.mem_cons.mp hv with h | h
        · exact absurd h.symm ha
        · exact h
      simp [List.takeWhile_cons, ha, ih ht]

/-- The string read at a value's first byte is decided by the value alone when
the value holds a zero byte: it is the value's bytes before that byte,
whatever lies behind the value in memory. -/
theorem cstr_of_value (m : Memory) (v rest : Bytes) (hm : m.bytes = v ++ rest) (hv : 0 ∈ v) :
    m.cstr.chars = v.takeWhile (fun b => b != 0) := by
  simp only [Memory.cstr, hm]
  exact takeWhile_append_stop v rest hv

/-- The memory that starts with the characters of `s` and a zero byte reads
as `s`, whatever follows. -/
theorem cstr_of_data (s : CStr) (m : Memory) (rest : Bytes)
    (hm : m.bytes = s.chars ++ [0] ++ rest) : m.cstr = s := by
  have h1 := cstr_of_value m (s.chars ++ [0]) rest hm (by simp)
  have h2 := takeWhile_mem s
  simp only [CStr.mem] at h2
  rw [h2] at h1
  obtain ⟨cs, hz⟩ := s
  cases hc : m.cstr with
  | mk c hc2 =>
    rw [hc] at h1
    simp only at h1
    subst h1
    rfl

/-! ## Results for every engine -/

theorem txnsClosed_sound (evs : List Event) (h : txnsClosed evs = true) : TxnsClosed evs := by
  induction evs with
  | nil =>
    intro pre post env parent flags t he
    simp at he
  | cons e rest ih =>
    intro pre post env parent flags t he
    cases pre with
    | nil =>
      simp only [List.nil_append, List.cons.injEq] at he
      obtain ⟨he1, he2⟩ := he
      subst he1 he2
      simp only [txnsClosed, ne_eq, not_true_eq_false, decide_False, Bool.false_or,
        Bool.and_eq_true, List.any_eq_true] at h
      obtain ⟨⟨x, hx, hc⟩, _⟩ := h
      refine ⟨x, hx, ?_⟩
      cases x <;> simp_all [Event.closes]
    | cons p pre1 =>
      simp only [List.cons_append, List.cons.injEq] at he
      obtain ⟨he1, he2⟩ := he
      have hr : txnsClosed rest = true := by
        cases e <;> simp_all [txnsClosed]
      exact ih hr pre1 post env parent flags t he2

/-- C3: for every engine and every value of the uninitialised local, the
events of `gcache_put` on a non-null handle contain exactly one upsert; its key is the bytes of `k`, `strlen k` of them and no terminator, and
its value is the bytes of `p` followed by one zero byte, `strlen p + 1` bytes;
payload "abc" is written as the four bytes 97, 98, 99, 0. -/
theorem gcache_put_upsert_bytes (E : Engine σ) (gc : gcache) (k p : CStr) (txn0 : Nat)
    (w : World σ) :
    (∃ evs, (gcache_put E (some gc) k p txn0 w).2.trace = w.trace ++ evs ∧
      upserts evs = [(k.chars, p.chars ++ [0])]) ∧
    k.chars.length = strlen k ∧
    (p.chars ++ [0]).length = strlen p + 1 ∧
    (∃ evs, (gcache_put E (some gc) k abc txn0 w).2.trace = w.trace ++ evs ∧
      upserts evs = [(k.chars, [97, 98, 99, 0])]) := by
  have key : ∀ q : CStr, ∃ evs, (gcache_put E (some gc) k q txn0 w).2.trace = w.trace ++ evs ∧
      upserts evs = [(k.chars, q.chars ++ [0])] := by
    intro q
    unfold gcache_put
    simp only [mdb_txn_begin, mdb_put, mdb_txn_commit, mdb_txn_abort, fprintf_stderr,
      World.emit, key_bytes, data_bytes]
    split_ifs <;> simp [upserts]
  refine ⟨key p, (strlen_eq k).symm, by simp [strlen_eq], ?_⟩
  simpa [abc] using key abc

theorem closed_of_check {tr pre : List Event}
    (h : ∃ evs, tr = pre ++ evs ∧ txnsClosed evs = true) :
    ∃ evs, tr = pre ++ evs ∧ TxnsClosed evs := by
  obtain ⟨evs, h1, h2⟩ := h
  exact ⟨evs, h1, txnsClosed_sound evs h2⟩

theorem gcache_open_closed (E : Engine σ) (size : Nat) (path : CStr) (rdonly : Int)
    (w : World σ) :
    ∃ evs, (gcache_open E size path rdonly w).2.trace = w.trace ++ evs ∧ TxnsClosed evs := by
  apply closed_of_check
  unfold gcache_open
  simp only [mdb_env_create, mdb_env_set_mapsize, mdb_env_open, mdb_env_close, mdb_txn_begin,
    mdb_dbi_open, mdb_txn_commit, mdb_txn_abort, fprintf_stderr, printf, free_gc, World.emit]
  split_ifs
  all_goals first
    | exact ⟨[], (List.append_nil _).symm, rfl⟩
    | simp only [List.append_assoc, List.append_cancel_left_eq, exists_eq_left',
        List.singleton_append, List.cons_append, List.nil_append, txnsClosed, List.any_cons,
        List.any_nil, beq_self_eq_true, Bool.or_true, Bool.true_or, Bool.or_false,
        Bool.and_self, Bool.and_true, Bool.false_or]

theorem gcache_put_closed (E : Engine σ) (gc : Option gcache) (k p : CStr) (txn0 : Nat)
    (w : World σ) :
    ∃ evs, (gcache_put E gc k p txn0 w).2.trace = w.trace ++ evs ∧ TxnsClosed evs := by
  apply closed_of_check
  cases gc with
  | none => exact ⟨[], (List.append_nil _).symm, rfl⟩
  | some gc =>
    unfold gcache_put
    simp only [mdb_txn_begin, mdb_put, mdb_txn_commit, mdb_txn_abort, fprintf_stderr,
      World.emit, key_bytes, data_bytes]
    split_ifs
    all_goals simp only [List.append_assoc, List.append_cancel_left_eq, exists_eq_left',
        List.singleton_append, List.cons_append, List.nil_append, txnsClosed, List.any_cons,
        List.any_nil, beq_self_eq_true, Bool.or_true, Bool.true_or, Bool.or_false,
        Bool.and_self, Bool.and_true, Bool.false_or]

theorem gcache_get_closed (E : Engine σ) (gc : Option gcache) (k : CStr) (txn0 : Nat)
    (w : World σ) :
    ∃ evs, (gcache_get E gc k txn0 w).2.trace = w.trace ++ evs ∧ TxnsClosed evs := by
  apply closed_of_check
  cases gc with
  | none => exact ⟨[], (List.append_nil _).symm, rfl⟩
  | some gc =>
    unfold gcache_get
    simp only [mdb_txn_begin, mdb_get, mdb_txn_commit, fprintf_stderr, printf, World.emit,
      key_bytes]
    split_ifs with h1
    all_goals simp only [List.append_assoc, List.append_cancel_left_eq, exists_eq_left',
        List.singleton_append, List.cons_append, List.nil_append, txnsClosed, List.any_cons,
        List.any_nil, beq_self_eq_true, Bool.or_true, Bool.true_or, Bool.or_false,
        Bool.and_self, Bool.and_true, Bool.false_or, ne_eq, h1, not_false_eq_true,
        decide_True]

theorem gcache_json_get_closed (E : Engine σ) (C : Codec J) (gc : Option gcache) (k : CStr)
    (txn0 : Nat) (w : World σ) :
    ∃ evs, (gcache_json_get E C gc k txn0 w).2.trace = w.trace ++ evs ∧ TxnsClosed evs := by
  apply closed_of_check
  cases gc with
  | none => exact ⟨[], (List.append_nil _).symm, rfl⟩
  | some gc =>
    unfold gcache_json_get
    simp only [mdb_txn_begin, mdb_get, mdb_txn_commit, fprintf_stderr, World.emit, key_bytes]
    generalize E.txn_begin gc.env NULL MDB_RDONLY w.eng = b
    obtain ⟨rc1, t, s1⟩ := b
    simp only
    generalize E.get (t.getD txn0) gc.dbi k.chars s1 = g
    obtain ⟨rc2, d, s2⟩ := g
    simp only
    cases hd : C.json_decode d.mv_data.cstr <;> split_ifs with h1 <;>
      simp only [List.append_assoc, List.singleton_append, List.cons_append,
        List.nil_append] <;>
      simp only [List.append_cancel_left_eq, exists_eq_left', txnsClosed, List.any_cons,
        List.any_nil, beq_self_eq_true, Bool.or_true, Bool.true_or, Bool.or_false,
        Bool.and_self, Bool.and_true, Bool.false_or, ne_eq, h1, not_false_eq_true,
        decide_True]

/-- C7: in the events of each of `gcache_open`, `gcache_put`, `gcache_get` and
`gcache_json_get`, on every path, for every engine and every value of the
uninitialised local, each transaction whose `mdb_txn_begin` returned 0 is
later committed or aborted, under the same handle, before the operation
returns. -/
theorem txns_closed (E : Engine σ) (C : Codec J) (size : Nat) (path : CStr) (rdonly : Int)
    (gc : Option gcache) (k p : CStr) (txn0 : Nat) (w : World σ) :
    (∃ evs, (gcache_open E size path rdonly w).2.trace = w.trace ++ evs ∧ TxnsClosed evs) ∧
    (∃ evs, (gcache_put E gc k p txn0 w).2.trace = w.trace ++ evs ∧ TxnsClosed evs) ∧
    (∃ evs, (gcache_get E gc k txn0 w).2.trace = w.trace ++ evs ∧ TxnsClosed evs) ∧
    (∃ evs, (gcache_json_get E C gc k txn0 w).2.trace = w.trace ++ evs ∧ TxnsClosed evs) :=
  ⟨gcache_open_closed E size path rdonly w, gcache_put_closed E gc k p txn0 w,
    gcache_get_closed E gc k txn0 w, gcache_json_get_closed E C gc k txn0 w⟩

theorem gcache_json_get_res (E : Engine σ) (C : Codec J) (gc : gcache) (k : CStr)
    (txn0 : Nat) (w : World σ) :
    (gcache_json_get E C (some gc) k txn0 w).1 =
      if (E.txn_begin gc.env NULL MDB_RDONLY w.eng).1 ≠ 0 then none
      else if (E.get ((E.txn_begin gc.env NULL MDB_RDONLY w.eng).2.1.getD txn0) gc.dbi k.chars
          (E.txn_begin gc.env NULL MDB_RDONLY w.eng).2.2).1 ≠ 0 then none
      else C.json_decode
        (E.get ((E.txn_begin gc.env NULL MDB_RDONLY w.eng).2.1.getD txn0) gc.dbi k.chars
          (E.txn_begin gc.env NULL MDB_RDONLY w.eng).2.2).2.1.mv_data.cstr := by
  unfold gcache_json_get
  simp only [mdb_txn_begin, mdb_get, mdb_txn_commit, fprintf_stderr, World.emit, key_bytes]
  generalize E.txn_begin gc.env NULL MDB_RDONLY w.eng = b
  obtain ⟨rc1, t, s1⟩ := b
  simp only
  generalize E.get (t.getD txn0) gc.dbi k.chars s1 = g
  obtain ⟨rc2, d, s2⟩ := g
  simp only
  cases hd : C.json_decode d.mv_data.cstr <;> split_ifs <;> simp

/-- C6: for a non-null handle, every engine, every codec and every value of
the uninitialised local, `gcache_json_get` returns a record `r` exactly when
the read-only `mdb_txn_begin` returns 0, the `mdb_get` of the key on that
transaction returns 0, and the text at the value it points to decodes to `r`;
it returns NULL exactly in the other cases: begin fails, or the lookup fails
(key not found or another error), or that text does not decode.  The text is
what `(char *)data.mv_data` reads, the memory up to its first zero byte; when
the value itself holds a zero byte, that is the value's bytes before it,
whatever lies behind the value. -/
theorem gcache_json_get_result (E : Engine σ) (C : Codec J) (gc : gcache) (k : CStr)
    (txn0 : Nat) (w : World σ) :
    (∀ r, (gcache_json_get E C (some gc) k txn0 w).1 = some r ↔
      ((E.txn_begin gc.env NULL MDB_RDONLY w.eng).1 = 0 ∧
       (E.get ((E.txn_begin gc.env NULL MDB_RDONLY w.eng).2.1.getD txn0) gc.dbi k.chars
          (E.txn_begin gc.env NULL MDB_RDONLY w.eng).2.2).1 = 0 ∧
       C.json_decode
        (E.get ((E.txn_begin gc.env NULL MDB_RDONLY w.eng).2.1.getD txn0) gc.dbi k.chars
          (E.txn_begin gc.env NULL MDB_RDONLY w.eng).2.2).2.1.mv_data.cstr = some r)) ∧
    ((gcache_json_get E C (some gc) k txn0 w).1 = none ↔
      ((E.txn_begin gc.env NULL MDB_RDONLY w.eng).1 ≠ 0 ∨
       (E.get ((E.txn_begin gc.env NULL MDB_RDONLY w.eng).2.1.getD txn0) gc.dbi k.chars
          (E.txn_begin gc.env NULL MDB_RDONLY w.eng).2.2).1 ≠ 0 ∨
       C.json_decode
        (E.get ((E.txn_begin gc.env NULL MDB_RDONLY w.eng).2.1.getD txn0) gc.dbi k.chars
          (E.txn_begin gc.env NULL MDB_RDONLY w.eng).2.2).2.1.mv_data.cstr = none)) ∧
    (∀ (m : Memory) (v rest : Bytes), m.bytes = v ++ rest → 0 ∈ v →
      m.cstr.chars = v.takeWhile (fun b => b != 0)) := by
  refine ⟨?_, ?_, cstr_of_value⟩
  · intro r
    rw [gcache_json_get_res]
    split_ifs with h1 h2
    · simp [h1]
    · simp [h2]
    · simp only [not_not] at h1 h2
      simp [h1, h2]
  · rw [gcache_json_get_res]
    split_ifs with h1 h2
    · simp [h1]
    · simp [h2]
    · simp only [not_not] at h1 h2
      simp [h1, h2]

/-- C10: for a non-null handle, every engine and every value of the
uninitialised local of the `gcache_put` it calls: when `json_stringify` fails,
`gcache_json_put` returns a nonzero code, leaves the engine state as it was
and makes no engine call (it only writes a diagnostic); when it yields text
`s`, the return code and the engine state are those of `gcache_put` with
payload `s`, and the events are those of that `gcache_put` followed by the
release of `s`. -/
theorem gcache_json_put_spec (E : Engine σ) (C : Codec J) (gc : gcache) (k : CStr) (r : J)
    (txn0 : Nat) (w : World σ) :
    (C.json_stringify r = none →
      (gcache_json_put E C (some gc) k r txn0 w).1 ≠ 0 ∧
      (gcache_json_put E C (some gc) k r txn0 w).2.eng = w.eng ∧
      ∃ evs, (gcache_json_put E C (some gc) k r txn0 w).2.trace = w.trace ++ evs ∧
        ∀ e ∈ evs, e.isEngine = false) ∧
    (∀ s, C.json_stringify r = some s →
      (gcache_json_put E C (some gc) k r txn0 w).1 = (gcache_put E (some gc) k s txn0 w).1 ∧
      (gcache_json_put E C (some gc) k r txn0 w).2.eng =
        (gcache_put E (some gc) k s txn0 w).2.eng ∧
      (gcache_json_put E C (some gc) k r txn0 w).2.trace =
        (gcache_put E (some gc) k s txn0 w).2.trace ++ [Event.free_js]) := by
  constructor
  · intro h
    simp [gcache_json_put, h, fprintf_stderr, World.emit, Event.isEngine]
  · intro s h
    simp [gcache_json_put, h, free_js, World.emit]

set_option maxHeartbeats 2000000 in
theorem gcache_open_begin_code_unused (E : Engine σ) (f : Int → Int) (size : Nat)
    (path : CStr) (rdonly : Int) (w : World σ) :
    (gcache_open (withBeginCode E f) size path rdonly w).1 =
      (gcache_open E size path rdonly w).1 ∧
    (gcache_open (withBeginCode E f) size path rdonly w).2.eng =
      (gcache_open E size path rdonly w).2.eng := by
  unfold gcache_open
  simp only [mdb_env_create, mdb_env_set_mapsize, mdb_env_open, mdb_env_close, mdb_txn_begin,
    mdb_dbi_open, mdb_txn_commit, mdb_txn_abort, fprintf_stderr, printf, free_gc, World.emit,
    withBeginCode]
  split_ifs <;> exact ⟨rfl, rfl⟩

/-! ## The in-memory engine -/

theorem lookup_upsert_self (k v : Bytes) (s : Store) : (upsert k v s).lookup k = some v := by
  induction s with
  | nil => simp [upsert, List.lookup]
  | cons a t ih =>
    obtain ⟨k1, v1⟩ := a
    by_cases h : k1 = k
    · simp [upsert, h, List.lookup]
    · have h2 : (k == k1) = false := by simpa using fun e => h e.symm
      simp [upsert, h, List.lookup, h2, ih]

theorem upsert_upsert (k v1 v2 : Bytes) (s : Store) :
    upsert k v2 (upsert k v1 s) = upsert k v2 s := by
  induction s with
  | nil => simp [upsert]
  | cons a t ih =>
    obtain ⟨k1, v1⟩ := a
    by_cases h : k1 = k
    · simp [upsert, h]
    · simp [upsert, h, ih]

/-! ### What each operation asks of the engine -/

/-- For every engine: `gcache_put` returns the code of `mdb_txn_commit` and
nothing else; the codes of `mdb_txn_begin` and `mdb_put` do not reach the
caller. -/
theorem gcache_put_eng (E : Engine σ) (gc : gcache) (k p : CStr) (txn0 : Nat) (w : World σ) :
    (gcache_put E (some gc) k p txn0 w).1 =
      (E.txn_commit ((E.txn_begin gc.env NULL 0 w.eng).2.1.getD txn0)
        (E.put ((E.txn_begin gc.env NULL 0 w.eng).2.1.getD txn0) gc.dbi k.chars
          (p.chars ++ [0]) 0 (E.txn_begin gc.env NULL 0 w.eng).2.2).2).1 ∧
    (gcache_put E (some gc) k p txn0 w).2.eng =
      if (E.txn_commit ((E.txn_begin gc.env NULL 0 w.eng).2.1.getD txn0)
        (E.put ((E.txn_begin gc.env NULL 0 w.eng).2.1.getD txn0) gc.dbi k.chars
          (p.chars ++ [0]) 0 (E.txn_begin gc.env NULL 0 w.eng).2.2).2).1 ≠ 0
      then E.txn_abort ((E.txn_begin gc.env NULL 0 w.eng).2.1.getD txn0)
        (E.txn_commit ((E.txn_begin gc.env NULL 0 w.eng).2.1.getD txn0)
          (E.put ((E.txn_begin gc.env NULL 0 w.eng).2.1.getD txn0) gc.dbi k.chars
            (p.chars ++ [0]) 0 (E.txn_begin gc.env NULL 0 w.eng).2.2).2).2
      else (E.txn_commit ((E.txn_begin gc.env NULL 0 w.eng).2.1.getD txn0)
        (E.put ((E.txn_begin gc.env NULL 0 w.eng).2.1.getD txn0) gc.dbi k.chars
          (p.chars ++ [0]) 0 (E.txn_begin gc.env NULL 0 w.eng).2.2).2).2 := by
  unfold gcache_put
  simp only [mdb_txn_begin, mdb_put, mdb_txn_commit, mdb_txn_abort, fprintf_stderr,
    World.emit, key_bytes, data_bytes, apply_ite World.eng, ite_self]
  exact ⟨trivial, trivial⟩

/-- For every engine: when `mdb_txn_begin` fails and stores no handle,
`gcache_put` does not return; it goes on to call `mdb_put` and
`mdb_txn_commit` on the indeterminate value `txn0` of its local. -/
theorem gcache_put_after_failed_begin (E : Engine σ) (gc : gcache) (k p : CStr) (txn0 : Nat)
    (w : World σ) (hrc : (E.txn_begin gc.env NULL 0 w.eng).1 ≠ 0)
    (hno : (E.txn_begin gc.env NULL 0 w.eng).2.1 = none) :
    ∃ rc1 rc2 rest, (gcache_put E (some gc) k p txn0 w).2.trace =
      w.trace ++ Event.txn_begin gc.env NULL 0 (E.txn_begin gc.env NULL 0 w.eng).1 txn0 ::
        Event.stderr (Msg.strerror (E.txn_begin gc.env NULL 0 w.eng).1) ::
        Event.put txn0 gc.dbi k.chars (p.chars ++ [0]) 0 rc1 ::
        (rest ++ [Event.txn_commit txn0 rc2]) ∨
      (gcache_put E (some gc) k p txn0 w).2.trace =
      w.trace ++ Event.txn_begin gc.env NULL 0 (E.txn_begin gc.env NULL 0 w.eng).1 txn0 ::
        Event.stderr (Msg.strerror (E.txn_begin gc.env NULL 0 w.eng).1) ::
        Event.put txn0 gc.dbi k.chars (p.chars ++ [0]) 0 rc1 ::
        (rest ++ [Event.txn_commit txn0 rc2, Event.stderr (Msg.txn_commit rc2),
          Event.txn_abort txn0]) := by
  unfold gcache_put
  simp only [mdb_txn_begin, mdb_put, mdb_txn_commit, mdb_txn_abort, fprintf_stderr,
    World.emit, key_bytes, data_bytes]
  generalize E.txn_begin gc.env NULL 0 w.eng = b at hrc hno ⊢
  obtain ⟨rc1, t, s1⟩ := b
  simp only at hrc hno
  subst hno
  simp only [Option.getD_none, hrc, ne_eq, not_false_eq_true, if_true]
  generalize E.put txn0 gc.dbi k.chars (p.chars ++ [0]) 0 s1 = q
  obtain ⟨rc2, s2⟩ := q
  simp only
  by_cases h2 : rc2 = 0
  · simp only [h2, not_true_eq_false, if_false]
    generalize E.txn_commit txn0 s2 = c
    obtain ⟨rc3, s3⟩ := c
    simp only
    by_cases h3 : rc3 = 0
    · exact ⟨0, rc3, [], Or.inl (by simp [h3])⟩
    · exact ⟨0, rc3, [], Or.inr (by simp [h3])⟩
  · simp only [h2, not_false_eq_true, if_true]
    generalize E.txn_commit txn0 s2 = c
    obtain ⟨rc3, s3⟩ := c
    simp only
    by_cases h3 : rc3 = 0
    · exact ⟨rc2, rc3, [Event.stderr (Msg.strerror rc2)], Or.inl (by simp [h3])⟩
    · exact ⟨rc2, rc3, [Event.stderr (Msg.strerror rc2)], Or.inr (by simp [h3])⟩

/-! ### Steps of the in-memory engine -/

theorem begin_ok (m : Mem) (env flags : Nat) (hc : nextCode m.script = 0)
    (ho : m.opened = true) (he : env = MEM_ENV)
    (hm : flags &&& MDB_RDONLY = 0 → m.rdonly = false) :
    Mem.txn_begin env flags m =
      (0, some (m.next + 1), { m with
        script := m.script.tail
        live := { id := m.next + 1, rdonly := flags &&& MDB_RDONLY != 0, view := m.store } ::
          m.live
        next := m.next + 1 }) := by
  by_cases hf : flags &&& MDB_RDONLY = 0
  · simp [Mem.txn_begin, Mem.pop, hc, ho, he, hf, hm hf]
  · simp [Mem.txn_begin, Mem.pop, hc, ho, he, hf]

theorem mem_put_ok (m : Mem) (gc : gcache) (k v : Bytes) (txn0 : Nat) (hW : Writable m gc)
    (hq : quiet 3 m.script) :
    (Mem.txn_commit ((Mem.txn_begin gc.env 0 m).2.1.getD txn0)
      (Mem.put ((Mem.txn_begin gc.env 0 m).2.1.getD txn0) gc.dbi k v
        (Mem.txn_begin gc.env 0 m).2.2).2).1 = 0 ∧
    (Mem.txn_commit ((Mem.txn_begin gc.env 0 m).2.1.getD txn0)
      (Mem.put ((Mem.txn_begin gc.env 0 m).2.1.getD txn0) gc.dbi k v
        (Mem.txn_begin gc.env 0 m).2.2).2).2.store = upsert k v m.store ∧
    (Mem.txn_commit ((Mem.txn_begin gc.env 0 m).2.1.getD txn0)
      (Mem.put ((Mem.txn_begin gc.env 0 m).2.1.getD txn0) gc.dbi k v
        (Mem.txn_begin gc.env 0 m).2.2).2).2.script = m.script.tail.tail.tail ∧
    (Mem.txn_commit ((Mem.txn_begin gc.env 0 m).2.1.getD txn0)
      (Mem.put ((Mem.txn_begin gc.env 0 m).2.1.getD txn0) gc.dbi k v
        (Mem.txn_begin gc.env 0 m).2.2).2).2.opened = m.opened ∧
    (Mem.txn_commit ((Mem.txn_begin gc.env 0 m).2.1.getD txn0)
      (Mem.put ((Mem.txn_begin gc.env 0 m).2.1.getD txn0) gc.dbi k v
        (Mem.txn_begin gc.env 0 m).2.2).2).2.rdonly = m.rdonly ∧
    (Mem.txn_commit ((Mem.txn_begin gc.env 0 m).2.1.getD txn0)
      (Mem.put ((Mem.txn_begin gc.env 0 m).2.1.getD txn0) gc.dbi k v
        (Mem.txn_begin gc.env 0 m).2.2).2).2.after = m.after := by
  obtain ⟨ho, hr, he, hd⟩ := hW
  simp only [quiet] at hq
  obtain ⟨h1, h2, h3, _⟩ := hq
  rw [begin_ok m gc.env 0 h1 ho he (fun _ => hr)]
  simp [Mem.pop, Mem.put, Mem.txn, Mem.txn_commit, hd, h2, h3, NULL]

theorem mem_get_ok (m : Mem) (gc : gcache) (k v : Bytes) (txn0 : Nat) (hR : Readable m gc)
    (hq : quiet 2 m.script) (hl : m.store.lookup k = some v) :
    (Mem.txn_begin gc.env MDB_RDONLY m).1 = 0 ∧
    (Mem.get ((Mem.txn_begin gc.env MDB_RDONLY m).2.1.getD txn0) gc.dbi k
      (Mem.txn_begin gc.env MDB_RDONLY m).2.2).1 = 0 ∧
    (Mem.get ((Mem.txn_begin gc.env MDB_RDONLY m).2.1.getD txn0) gc.dbi k
      (Mem.txn_begin gc.env MDB_RDONLY m).2.2).2.1.mv_data.bytes = v ++ m.after.bytes := by
  obtain ⟨ho, he, hd⟩ := hR
  simp only [quiet] at hq
  obtain ⟨h1, h2, _⟩ := hq
  have hro : ¬ (MDB_RDONLY &&& MDB_RDONLY = 0) := by decide
  rw [begin_ok m gc.env MDB_RDONLY h1 ho he (fun h => absurd h hro)]
  simp [Mem.pop, Mem.get, Mem.txn, hd, h2, NULL, hl]

/-! ### Successful operations on the in-memory engine -/

theorem gcache_put_ok (gc : gcache) (k p : CStr) (txn0 : Nat) (w : World Mem)
    (hW : Writable w.eng gc) (hq : quiet 3 w.eng.script) :
    (gcache_put memEngine (some gc) k p txn0 w).1 = 0 ∧
    (gcache_put memEngine (some gc) k p txn0 w).2.eng.store =
      upsert k.chars (p.chars ++ [0]) w.eng.store ∧
    (gcache_put memEngine (some gc) k p txn0 w).2.eng.script = w.eng.script.tail.tail.tail ∧
    (gcache_put memEngine (some gc) k p txn0 w).2.eng.after = w.eng.after ∧
    Writable (gcache_put memEngine (some gc) k p txn0 w).2.eng gc := by
  obtain ⟨h1, h2, h3, h4, h5, h6⟩ := mem_put_ok w.eng gc k.chars (p.chars ++ [0]) txn0 hW hq
  have he1 : (gcache_put memEngine (some gc) k p txn0 w).1 = 0 := by
    rw [(gcache_put_eng memEngine gc k p txn0 w).1]
    exact h1
  have he2 : (gcache_put memEngine (some gc) k p txn0 w).2.eng =
      (Mem.txn_commit ((Mem.txn_begin gc.env 0 w.eng).2.1.getD txn0)
        (Mem.put ((Mem.txn_begin gc.env 0 w.eng).2.1.getD txn0) gc.dbi k.chars (p.chars ++ [0])
          (Mem.txn_begin gc.env 0 w.eng).2.2).2).2 := by
    rw [(gcache_put_eng memEngine gc k p txn0 w).2]
    have h1b : (memEngine.txn_commit ((memEngine.txn_begin gc.env NULL 0 w.eng).2.1.getD txn0)
        (memEngine.put ((memEngine.txn_begin gc.env NULL 0 w.eng).2.1.getD txn0) gc.dbi k.chars
          (p.chars ++ [0]) 0 (memEngine.txn_begin gc.env NULL 0 w.eng).2.2).2).1 = 0 := h1
    rw [h1b]
    rfl
  rw [he2]
  refine ⟨he1, h2, h3, h6, ?_⟩
  obtain ⟨ho, hr, he, hd⟩ := hW
  exact ⟨by rw [h4, ho], by rw [h5, hr], he, hd⟩

theorem gcache_get_found (E : Engine σ) (gc : gcache) (k : CStr) (txn0 : Nat) (w : World σ)
    (hb : (E.txn_begin gc.env NULL MDB_RDONLY w.eng).1 = 0)
    (hg : (E.get ((E.txn_begin gc.env NULL MDB_RDONLY w.eng).2.1.getD txn0) gc.dbi k.chars
      (E.txn_begin gc.env NULL MDB_RDONLY w.eng).2.2).1 = 0) :
    ∃ evs, (gcache_get E (some gc) k txn0 w).2.trace = w.trace ++ evs ∧
      printed evs = [Msg.value
        (E.get ((E.txn_begin gc.env NULL MDB_RDONLY w.eng).2.1.getD txn0) gc.dbi k.chars
          (E.txn_begin gc.env NULL MDB_RDONLY w.eng).2.2).2.1.mv_data.cstr] := by
  unfold gcache_get
  simp only [mdb_txn_begin, mdb_get, mdb_txn_commit, fprintf_stderr, printf, World.emit,
    key_bytes, hb, hg, ne_eq, not_true_eq_false, if_false]
  simp only [List.append_assoc, List.singleton_append, List.cons_append, List.nil_append]
  simp [printed]

theorem gcache_json_put_ok (C : Codec J) (gc : gcache) (k js : CStr) (r : J) (txn0 : Nat)
    (w : World Mem) (hs : C.json_stringify r = some js) :
    (gcache_json_put memEngine C (some gc) k r txn0 w).1 =
      (gcache_put memEngine (some gc) k js txn0 w).1 ∧
    (gcache_json_put memEngine C (some gc) k r txn0 w).2.eng =
      (gcache_put memEngine (some gc) k js txn0 w).2.eng := by
  simp [gcache_json_put, hs, free_js, World.emit]

theorem readable_of_writable {m : Mem} {gc : gcache} (h : Writable m gc) : Readable m gc :=
  ⟨h.1, h.2.2.1, h.2.2.2⟩

/-! ## Results on the in-memory engine -/

/-- C1: on the in-memory engine, for a handle open for writing, every key `k`
and every record `r` whose serialization `js` decodes back to `r`: when no
failure is injected into the five storage steps involved (begin, put, commit
of the write; begin, get of the read), `gcache_json_put` returns 0, the value
then stored under `k` is the text of `js` followed by one zero byte, and the
following `gcache_json_get` returns `r`: it decodes the memory at the stored
value up to the zero byte, which reads as `js` whatever lies behind the
value. -/
theorem json_roundtrip (C : Codec J) (gc : gcache) (k js : CStr) (r : J) (txn0 txn1 : Nat)
    (w : World Mem) (hW : Writable w.eng gc) (hq : quiet 5 w.eng.script)
    (hs : C.json_stringify r = some js) (hd : C.json_decode js = some r) :
    (gcache_json_put memEngine C (some gc) k r txn0 w).1 = 0 ∧
    (gcache_json_put memEngine C (some gc) k r txn0 w).2.eng.store.lookup k.chars =
      some (js.chars ++ [0]) ∧
    (∀ (m : Memory) (rest : Bytes), m.bytes = js.chars ++ [0] ++ rest → m.cstr = js) ∧
    (gcache_json_get memEngine C (some gc) k txn1
      (gcache_json_put memEngine C (some gc) k r txn0 w).2).1 = some r := by
  simp only [quiet] at hq
  obtain ⟨q1, q2, q3, q4, q5, _⟩ := hq
  obtain ⟨p1, p2, p3, _, p4⟩ := gcache_put_ok gc k js txn0 w hW ⟨q1, q2, q3, trivial⟩
  obtain ⟨j1, j2⟩ := gcache_json_put_ok C gc k js r txn0 w hs
  have hl : (gcache_json_put memEngine C (some gc) k r txn0 w).2.eng.store.lookup k.chars =
      some (js.chars ++ [0]) := by
    rw [j2, p2]
    exact lookup_upsert_self _ _ _
  refine ⟨by rw [j1, p1], hl, fun m rest hm => cstr_of_data js m rest hm, ?_⟩
  have hR : Readable (gcache_json_put memEngine C (some gc) k r txn0 w).2.eng gc := by
    rw [j2]
    exact readable_of_writable p4
  have hq2 : quiet 2 (gcache_json_put memEngine C (some gc) k r txn0 w).2.eng.script := by
    rw [j2, p3]
    exact ⟨q4, q5, trivial⟩
  obtain ⟨g1, g2, g3⟩ := mem_get_ok _ gc k.chars (js.chars ++ [0]) txn1 hR hq2 hl
  rw [gcache_json_get_res]
  have g1b : (memEngine.txn_begin gc.env NULL MDB_RDONLY
      (gcache_json_put memEngine C (some gc) k r txn0 w).2.eng).1 = 0 := g1
  have g2b : (memEngine.get ((memEngine.txn_begin gc.env NULL MDB_RDONLY
      (gcache_json_put memEngine C (some gc) k r txn0 w).2.eng).2.1.getD txn1) gc.dbi k.chars
      (memEngine.txn_begin gc.env NULL MDB_RDONLY
        (gcache_json_put memEngine C (some gc) k r txn0 w).2.eng).2.2).1 = 0 := g2
  have g3b : (memEngine.get ((memEngine.txn_begin gc.env NULL MDB_RDONLY
      (gcache_json_put memEngine C (some gc) k r txn0 w).2.eng).2.1.getD txn1) gc.dbi k.chars
      (memEngine.txn_begin gc.env NULL MDB_RDONLY
        (gcache_json_put memEngine C (some gc) k r txn0 w).2.eng).2.2).2.1.mv_data.cstr = js :=
    cstr_of_data js _ _ g3
  rw [g1b, g2b, g3b]
  simpa using hd

/-- C9: on the in-memory engine, for a handle open for writing, when no failure
is injected into the two puts and the read that follows, `gcache_put` of `v1`
then of `v2` under the same key `k` both return 0 and leave under `k` the
bytes of `v2` followed by one zero byte; a following `gcache_get` of `k`
prints `v2` and nothing else; and the committed store is the one that the
single `gcache_put` of `v2` produces from the initial state. -/
theorem put_overwrites (gc : gcache) (k v1 v2 : CStr) (txn0 txn1 txn2 txn3 : Nat)
    (w : World Mem) (hW : Writable w.eng gc) (hq : quiet 8 w.eng.script) :
    (gcache_put memEngine (some gc) k v1 txn0 w).1 = 0 ∧
    (gcache_put memEngine (some gc) k v2 txn1
      (gcache_put memEngine (some gc) k v1 txn0 w).2).1 = 0 ∧
    (gcache_put memEngine (some gc) k v2 txn1
      (gcache_put memEngine (some gc) k v1 txn0 w).2).2.eng.store.lookup k.chars =
        some (v2.chars ++ [0]) ∧
    (∃ evs, (gcache_get memEngine (some gc) k txn2 (gcache_put memEngine (some gc) k v2 txn1
        (gcache_put memEngine (some gc) k v1 txn0 w).2).2).2.trace =
      (gcache_put memEngine (some gc) k v2 txn1
        (gcache_put memEngine (some gc) k v1 txn0 w).2).2.trace ++ evs ∧
      printed evs = [Msg.value v2]) ∧
    (gcache_put memEngine (some gc) k v2 txn1
      (gcache_put memEngine (some gc) k v1 txn0 w).2).2.eng.store =
      (gcache_put memEngine (some gc) k v2 txn3 w).2.eng.store := by
  simp only [quiet] at hq
  obtain ⟨q1, q2, q3, q4, q5, q6, q7, q8, _⟩ := hq
  obtain ⟨a1, a2, a3, _, a4⟩ := gcache_put_ok gc k v1 txn0 w hW ⟨q1, q2, q3, trivial⟩
  obtain ⟨b1, b2, b3, _, b4⟩ := gcache_put_ok gc k v2 txn1
    (gcache_put memEngine (some gc) k v1 txn0 w).2 a4 (by rw [a3]; exact ⟨q4, q5, q6, trivial⟩)
  obtain ⟨c1, c2, _, _⟩ := gcache_put_ok gc k v2 txn3 w hW ⟨q1, q2, q3, trivial⟩
  have hl : (gcache_put memEngine (some gc) k v2 txn1
      (gcache_put memEngine (some gc) k v1 txn0 w).2).2.eng.store.lookup k.chars =
        some (v2.chars ++ [0]) := by
    rw [b2]
    exact lookup_upsert_self _ _ _
  refine ⟨a1, b1, hl, ?_, ?_⟩
  · obtain ⟨g1, g2, g3⟩ := mem_get_ok _ gc k.chars (v2.chars ++ [0]) txn2
      (readable_of_writable b4) (by rw [b3, a3]; exact ⟨q7, q8, trivial⟩) hl
    obtain ⟨evs, e1, e2⟩ := gcache_get_found memEngine gc k txn2 _ g1 g2
    refine ⟨evs, e1, ?_⟩
    rw [e2]
    have g3b : (memEngine.get ((memEngine.txn_begin gc.env NULL MDB_RDONLY
        (gcache_put memEngine (some gc) k v2 txn1
          (gcache_put memEngine (some gc) k v1 txn0 w).2).2.eng).2.1.getD txn2) gc.dbi k.chars
        (memEngine.txn_begin gc.env NULL MDB_RDONLY
          (gcache_put memEngine (some gc) k v2 txn1
            (gcache_put memEngine (some gc) k v1 txn0 w).2).2.eng).2.2).2.1.mv_data.cstr = v2 :=
      cstr_of_data v2 _ _ g3
    rw [g3b]
  · rw [b2, a2, c2, upsert_upsert]

/-! ## Concrete runs -/

theorem gcache_open_ok :
    (gcache_open memEngine 1048576 dbPath 0 ⟨memClosed [], []⟩).1 = some handle ∧
    (gcache_open memEngine 1048576 dbPath 0 ⟨memClosed [], []⟩).2.eng = memOpen [] := by
  decide

/-- A stored value without a zero byte is read past its end: with "a" stored
and "ZZ" behind it in memory, `gcache_get` prints "aZZ". -/
theorem gcache_get_reads_past_value :
    printed (gcache_get memEngine (some handle) geohash 0 ⟨memRaw [], []⟩).2.trace =
      [Msg.value ⟨[97, 90, 90], by decide⟩] := by
  decide

/-- C2, at the failing input: the environment is open for writing, the key
is the empty string, begin succeeds, `mdb_put` fails with MDB_BAD_VALSIZE and
the commit of the transaction, which holds no write, succeeds.  `gcache_put`
returns 0 although nothing is stored under the key. -/
theorem gcache_put_zero_without_write :
    (gcache_put memEngine (some handle) emptyKey abc 57005
      ⟨memOpen [0, MDB_BAD_VALSIZE, 0], []⟩).1 = 0 ∧
    (gcache_put memEngine (some handle) emptyKey abc 57005
      ⟨memOpen [0, MDB_BAD_VALSIZE, 0], []⟩).2.eng.store = [] ∧
    (gcache_put memEngine (some handle) emptyKey abc 57005
      ⟨memOpen [0, MDB_BAD_VALSIZE, 0], []⟩).2.trace =
      [Event.txn_begin 1 0 0 0 2,
       Event.put 2 1 [] [97, 98, 99, 0] 0 MDB_BAD_VALSIZE,
       Event.stderr (Msg.strerror MDB_BAD_VALSIZE),
       Event.txn_commit 2 0] := by
  decide

/-- C4, at the failing input: the path is a directory, the environment is
created and opened, `mdb_txn_begin` fails with ENOMEM, and the engine answers
0 to the `mdb_dbi_open` and `mdb_txn_commit` that the code goes on to issue
on the NULL transaction.  `gcache_open` returns a handle. -/
theorem gcache_open_handle_after_failed_begin :
    (gcache_open scriptEngine 1048576 dbPath 0 ⟨[0, 0, ENOMEM, 0, 0], []⟩).1 =
      some { env := 1, dbi := 1 } ∧
    (gcache_open scriptEngine 1048576 dbPath 0 ⟨[0, 0, ENOMEM, 0, 0], []⟩).2.trace =
      [Event.env_create 0 1,
       Event.env_set_mapsize 1 1048576 0,
       Event.env_open 1 dbPath 0 436 0,
       Event.txn_begin 1 0 0 ENOMEM 0,
       Event.dbi_open 0 0 0 1,
       Event.txn_commit 0 0] := by
  decide

/-- C5, at the failing input: the environment is created and `mdb_env_open`
fails with ENOENT.  `gcache_open` returns NULL and its events hold no
`mdb_env_close`: the created environment is not released. -/
theorem gcache_open_no_close_after_failed_env_open :
    (gcache_open memEngine 1048576 dbPath 0 ⟨memClosed [0, ENOENT], []⟩).1 = none ∧
    (gcache_open memEngine 1048576 dbPath 0 ⟨memClosed [0, ENOENT], []⟩).2.trace =
      [Event.env_create 0 1,
       Event.env_set_mapsize 1 1048576 0,
       Event.env_open 1 dbPath 0 436 ENOENT,
       Event.stderr (Msg.strerror ENOENT),
       Event.free_gc] ∧
    Event.env_close 1 ∉
      (gcache_open memEngine 1048576 dbPath 0 ⟨memClosed [0, ENOENT], []⟩).2.trace := by
  decide

/-- Witness for `json_roundtrip`: an empty JSON object stored under "u33dc" in an
empty environment, with the text codec and no injected failure. -/
theorem json_roundtrip_witness :
    Writable (memOpen []) handle ∧ quiet 5 (memOpen []).script ∧
    textCodec.json_stringify [123, 125] = some braces ∧
    textCodec.json_decode braces = some [123, 125] ∧
    (gcache_json_put memEngine textCodec (some handle) geohash [123, 125] 11
      ⟨memOpen [], []⟩).1 = 0 ∧
    (gcache_json_get memEngine textCodec (some handle) geohash 12
      (gcache_json_put memEngine textCodec (some handle) geohash [123, 125] 11
        ⟨memOpen [], []⟩).2).1 = some [123, 125] :=
  have hW : Writable (memOpen []) handle := ⟨rfl, rfl, rfl, rfl⟩
  have hq : quiet 5 (memOpen []).script := ⟨rfl, rfl, rfl, rfl, rfl, trivial⟩
  have hs : textCodec.json_stringify [123, 125] = some braces := by decide
  have hd : textCodec.json_decode braces = some [123, 125] := rfl
  have h := json_roundtrip textCodec handle geohash braces [123, 125] 11 12 ⟨memOpen [], []⟩
    hW hq hs hd
  ⟨hW, hq, hs, hd, h.1, h.2.2.2⟩

/-- Witness for `gcache_json_get_result`: with an empty JSON object stored
under "u33dc" and "ZZ" behind it in memory, begin and lookup succeed, the text
read is the object, and the record is returned; on an empty store the lookup
fails and NULL is returned. -/
theorem gcache_json_get_result_witness :
    (gcache_json_get memEngine textCodec (some handle) geohash 13
      ⟨memStored [], []⟩).1 = some [123, 125] ∧
    (gcache_json_get memEngine textCodec (some handle) geohash 13
      ⟨memOpen [], []⟩).1 = none :=
  ⟨((gcache_json_get_result memEngine textCodec handle geohash 13 ⟨memStored [], []⟩).1
      [123, 125]).mpr ⟨by decide, by decide, by decide⟩,
   (gcache_json_get_result memEngine textCodec handle geohash 13 ⟨memOpen [], []⟩).2.1.mpr
      (Or.inr (Or.inl (by decide)))⟩

/-- Witness for `put_overwrites`: "abc" then "xyz" under "u33dc" in an empty
environment with no injected failure. -/
theorem put_overwrites_witness :
    Writable (memOpen []) handle ∧ quiet 8 (memOpen []).script ∧
    (gcache_put memEngine (some handle) geohash xyz 22
      (gcache_put memEngine (some handle) geohash abc 21
        ⟨memOpen [], []⟩).2).2.eng.store.lookup geohash.chars = some [120, 121, 122, 0] ∧
    (gcache_put memEngine (some handle) geohash xyz 22
      (gcache_put memEngine (some handle) geohash abc 21 ⟨memOpen [], []⟩).2).2.eng.store =
      (gcache_put memEngine (some handle) geohash xyz 24 ⟨memOpen [], []⟩).2.eng.store :=
  have hW : Writable (memOpen []) handle := ⟨rfl, rfl, rfl, rfl⟩
  have hq : quiet 8 (memOpen []).script :=
    ⟨rfl, rfl, rfl, rfl, rfl, rfl, rfl, rfl, trivial⟩
  have h := put_overwrites handle geohash abc xyz 21 22 23 24 ⟨memOpen [], []⟩ hW hq
  ⟨hW, hq, h.2.2.1, h.2.2.2.2⟩

/-- Witness for `gcache_json_put_spec`: with the text codec, the record holding
a zero byte does not serialize, and the empty JSON object does. -/
theorem gcache_json_put_spec_witness :
    textCodec.json_stringify [0] = none ∧
    (gcache_json_put memEngine textCodec (some handle) geohash [0] 31
      ⟨memOpen [], []⟩).1 ≠ 0 ∧
    (gcache_json_put memEngine textCodec (some handle) geohash [0] 31
      ⟨memOpen [], []⟩).2.eng = memOpen [] ∧
    textCodec.json_stringify [123, 125] = some braces ∧
    (gcache_json_put memEngine textCodec (some handle) geohash [123, 125] 31
      ⟨memOpen [], []⟩).1 =
      (gcache_put memEngine (some handle) geohash braces 31 ⟨memOpen [], []⟩).1 :=
  have h0 : textCodec.json_stringify [0] = none := by decide
  have hs : textCodec.json_stringify [123, 125] = some braces := by decide
  have hn := (gcache_json_put_spec memEngine textCodec handle geohash [0] 31
    ⟨memOpen [], []⟩).1 h0
  have hp := (gcache_json_put_spec memEngine textCodec handle geohash [123, 125] 31
    ⟨memOpen [], []⟩).2 braces hs
  ⟨h0, hn.1, hn.2.1, hs, hp.1⟩

end Gcache
